import Mathlib

/- A shallow embedding of the deepwiki documentation generator: the SSE stream
   decoder and completion client (src/client.py), the data model
   (src/models.py), the SQLite-backed document store (src/database.py), and the
   batch processor (src/batch_cli.py).  Python strings are represented as lists
   of characters; Python's dynamically typed JSON values as the inductive type
   PyVal; code that can raise returns Except. -/

/-- Convert a Lean string literal to the character-list representation used for
Python strings throughout this development. -/
def toL (s : String) : List Char := s.toList

/-- Python str.strip with no argument: drop whitespace from both ends. -/
def pyStrip (s : List Char) : List Char :=
  ((s.dropWhile Char.isWhitespace).reverse.dropWhile Char.isWhitespace).reverse

/-- Python str.startswith: startsWithL pre s decides whether pre is a prefix
of s. -/
def startsWithL : List Char → List Char → Bool
  | [], _ => true
  | _ :: _, [] => false
  | p :: ps, c :: cs => p == c && startsWithL ps cs

/-- A dynamically typed value, as produced by Python's json.loads (dict keys
coming from JSON are always strings). -/
inductive PyVal : Type where
  | null : PyVal
  | bool : Bool → PyVal
  | int : Int → PyVal
  | str : List Char → PyVal
  | list : List PyVal → PyVal
  | dict : List (List Char × PyVal) → PyVal

/-- Python truthiness of a value. -/
def PyVal.truthy : PyVal → Bool
  | .null => false
  | .bool b => b
  | .int n => n != 0
  | .str s => !s.isEmpty
  | .list xs => !xs.isEmpty
  | .dict kvs => !kvs.isEmpty

/-- Lookup in a string-keyed association table (first match wins); models both
Python dict lookup and a lookup of a row by primary key. -/
def tblGet {β : Type} : List (List Char × β) → List Char → Option β
  | [], _ => none
  | (k, v) :: rest, key => if k = key then some v else tblGet rest key

/-- Python v.get(key, dflt): defined on dicts, raises AttributeError on any
other value. -/
def pyGetD (v : PyVal) (key : List Char) (dflt : PyVal) : Except Unit PyVal :=
  match v with
  | .dict kvs => .ok ((tblGet kvs key).getD dflt)
  | _ => .error ()

/-- Python len(v): defined on strings, lists and dicts, raises otherwise. -/
def pyLen : PyVal → Except Unit Nat
  | .str s => .ok s.length
  | .list xs => .ok xs.length
  | .dict kvs => .ok kvs.length
  | _ => .error ()

/-- Python v[0]: first element of a list, one-character string of a string;
raises otherwise (a JSON dict has string keys, so d[0] is a KeyError). -/
def pyIndexZero : PyVal → Except Unit PyVal
  | .list (x :: _) => .ok x
  | .str (c :: _) => .ok (.str [c])
  | _ => .error ()

/-- src/models.py Message: a chat message with a role and content. -/
structure Message where
  role : List Char
  content : List Char
deriving DecidableEq

/-- Constructing a Message runs Message.__post_init__, which raises ValueError
for any role outside the enumerated set. -/
def mkMessage (role content : List Char) : Except (List Char) Message :=
  if role = toL "user" ∨ role = toL "assistant" ∨ role = toL "system" then
    .ok { role := role, content := content }
  else
    .error (toL "Invalid role")

/-- src/models.py ChatCompletionChunk: each field holds whatever dynamically
typed value the client extracted from the parsed SSE frame. -/
structure ChatCompletionChunk where
  id : PyVal
  object : PyVal
  created : PyVal
  model : PyVal
  choices : PyVal
  system_fingerprint : PyVal
  prompt_filter_results : PyVal

/-- ChatCompletionChunk.get_content: content of the first choice's delta.
Mirrors the Python body, including the AttributeError raised when the first
choice, or a present delta value, is not a dict. -/
def ChatCompletionChunk.get_content (c : ChatCompletionChunk) : Except Unit PyVal :=
  if c.choices.truthy then do
    let n ← pyLen c.choices
    if 0 < n then do
      let first ← pyIndexZero c.choices
      let delta ← pyGetD first (toL "delta") (.dict [])
      pyGetD delta (toL "content") (.str [])
    else
      pure (.str [])
  else
    pure (.str [])

/-- PollinationClient._parse_sse_line, parameterized by json.loads (parseJson
returns none exactly when json.loads would raise JSONDecodeError, which the
method logs and turns into a skipped line).  Returns none for skipped lines;
the [DONE] marker becomes the sentinel dict with key done. -/
def PollinationClient._parse_sse_line (parseJson : List Char → Option PyVal)
    (line : List Char) : Option PyVal :=
  let line := pyStrip line
  if line = [] ∨ line.head? = some ':' then
    none
  else if startsWithL (toL "data: ") line then
    let data_str := line.drop 6
    if pyStrip data_str = toL "[DONE]" then
      some (.dict [(toL "done", .bool true)])
    else
      parseJson data_str
  else
    none

/-- Chunk construction in PollinationClient.chat_completion from a parsed
frame, with the defaults the source supplies for absent keys. -/
def mkChunk (kvs : List (List Char × PyVal)) : ChatCompletionChunk :=
  { id := (tblGet kvs (toL "id")).getD (.str [])
    object := (tblGet kvs (toL "object")).getD (.str [])
    created := (tblGet kvs (toL "created")).getD (.int 0)
    model := (tblGet kvs (toL "model")).getD (.str [])
    choices := (tblGet kvs (toL "choices")).getD (.list [])
    system_fingerprint := (tblGet kvs (toL "system_fingerprint")).getD .null
    prompt_filter_results := (tblGet kvs (toL "prompt_filter_results")).getD .null }

/-- The outcome of draining a generator: the values yielded in order, plus
whether the generator raised instead of finishing normally. -/
structure StreamRun where
  yielded : List ChatCompletionChunk
  raised : Bool

/-- The streaming loop of PollinationClient.chat_completion over the lines of
the HTTP response body: falsy (empty) lines are skipped, lines are parsed with
_parse_sse_line, a skipped line continues (the parsed-is-None check also
matches a frame that parsed to the JSON null value, since json.loads then
returns the same Python None the skip path returns), a parsed frame with a
truthy done key breaks out of the loop, a parsed non-dict non-null frame
raises (AttributeError on parsed.get), and every other parsed frame is
yielded as a chunk. -/
def PollinationClient.chat_completion (parseJson : List Char → Option PyVal) :
    List (List Char) → StreamRun
  | [] => { yielded := [], raised := false }
  | line :: rest =>
    if line = [] then PollinationClient.chat_completion parseJson rest
    else
      match PollinationClient._parse_sse_line parseJson line with
      | none => PollinationClient.chat_completion parseJson rest
      | some .null => PollinationClient.chat_completion parseJson rest
      | some (.dict kvs) =>
        if ((tblGet kvs (toL "done")).getD .null).truthy then
          { yielded := [], raised := false }
        else
          let r := PollinationClient.chat_completion parseJson rest
          { yielded := mkChunk kvs :: r.yielded, raised := r.raised }
      | some _ => { yielded := [], raised := true }

/-- The join inside chat_completion_simple: Python str.join demands every piece
be a string, and get_content itself may raise. -/
def joinContents : List ChatCompletionChunk → Except Unit (List Char)
  | [] => .ok []
  | c :: rest => do
    let v ← c.get_content
    match v with
    | .str s =>
      match joinContents rest with
      | .ok r => .ok (s ++ r)
      | .error e => .error e
    | _ => .error ()

/-- PollinationClient.chat_completion_simple: drain the stream, concatenate
get_content over the yielded chunks in arrival order, and strip the result;
any exception from the stream or from the join propagates. -/
def PollinationClient.chat_completion_simple (parseJson : List Char → Option PyVal)
    (lines : List (List Char)) : Except Unit (List Char) :=
  let run := PollinationClient.chat_completion parseJson lines
  match joinContents run.yielded with
  | .error e => .error e
  | .ok s => if run.raised then .error () else .ok (pyStrip s)

/-- src/models.py DocMetadata.  SQLite REAL columns are carried as integers
here: the code never computes with them, it only stores and retrieves them.
created_at is the optional creation timestamp (datetime values are carried as
their timestamps). -/
structure DocMetadata where
  file_path : List Char
  model : List Char
  tokens_used : Int
  generation_time : Int
  prompt_hash : List Char
  temperature : Int
  llm_config : PyVal
  dependencies : List PyVal
  created_at : Option Int

/-- One row of the documents table of src/database.py (the id primary key is
the association key of the table).  The llm_config and dependencies columns
hold json.dumps text; serialization is modelled as the identity on the value,
since save writes json.dumps and get reads it back with json.loads. -/
structure DocRow where
  file_path : List Char
  content : List Char
  model : List Char
  tokens_used : Int
  generation_time : Int
  created_at : Int
  temperature : Int
  prompt_hash : List Char
  llm_config : PyVal
  dependencies : List PyVal

/-- The dict returned by DocDatabase.get_document (documents row joined with
its prompts row). -/
structure Document where
  id : List Char
  file_path : List Char
  content : List Char
  model : List Char
  tokens_used : Int
  generation_time : Int
  created_at : Int
  temperature : Int
  prompt_hash : List Char
  llm_config : PyVal
  dependencies : List PyVal
  prompt : List Char

/-- The state of one DocDatabase: the three tables, each an association list
keyed by its primary key, and whether the connection has been closed.  The
embeddings table's ON DELETE CASCADE clause never fires because the code never
turns sqlite foreign-key enforcement on. -/
structure DBState where
  documents : List (List Char × DocRow)
  prompts : List (List Char × (List Char × Int))
  embeddings : List (List Char × List Char)
  closed : Bool

/-- INSERT OR REPLACE keyed by primary key: the new row replaces any existing
row with the same key. -/
def upsert {β : Type} (t : List (List Char × β)) (k : List Char) (v : β) :
    List (List Char × β) :=
  (k, v) :: t.filter (fun e => !(e.1 == k))

/-- DocDatabase._hash_prompt, parameterized by the sha256 hex digest function
of hashlib (an external library). -/
def DocDatabase._hash_prompt (sha256hex : List Char → List Char)
    (prompt : List Char) : List Char :=
  sha256hex prompt

/-- DocDatabase._generate_doc_id: first 20 hex characters of the sha256 digest
of "file_path:prompt_hash". -/
def DocDatabase._generate_doc_id (sha256hex : List Char → List Char)
    (file_path prompt_hash : List Char) : List Char :=
  (sha256hex (file_path ++ ':' :: prompt_hash)).take 20

/-- DocDatabase.save_document.  content is carried after the bytes branch has
decoded it to a string; now is the value of time.time().  The method also
mutates metadata.prompt_hash in place, which no caller in the claims observes.
On a closed connection the INSERT raises sqlite3.ProgrammingError, which the
except clause re-raises. -/
def DocDatabase.save_document (sha256hex : List Char → List Char) (s : DBState)
    (content : List Char) (metadata : DocMetadata) (prompt : List Char)
    (vector : Option (List Char)) (now : Int) :
    Except Unit (DBState × List Char) :=
  if s.closed then .error ()
  else
    let prompt_hash := DocDatabase._hash_prompt sha256hex prompt
    let doc_id := DocDatabase._generate_doc_id sha256hex metadata.file_path prompt_hash
    let row : DocRow :=
      { file_path := metadata.file_path
        content := content
        model := metadata.model
        tokens_used := metadata.tokens_used
        generation_time := metadata.generation_time
        created_at := metadata.created_at.getD now
        temperature := metadata.temperature
        prompt_hash := prompt_hash
        llm_config := metadata.llm_config
        dependencies := metadata.dependencies }
    let embeddings' :=
      match vector with
      | some v => if !v.isEmpty then upsert s.embeddings doc_id v else s.embeddings
      | none => s.embeddings
    .ok ({ documents := upsert s.documents doc_id row
           prompts := upsert s.prompts prompt_hash (prompt, now)
           embeddings := embeddings'
           closed := s.closed }, doc_id)

/-- Assembling the result dict of get_document from a documents row and the
prompt text joined in from the prompts table. -/
def mkDocument (doc_id : List Char) (row : DocRow) (prompt : List Char) : Document :=
  { id := doc_id
    file_path := row.file_path
    content := row.content
    model := row.model
    tokens_used := row.tokens_used
    generation_time := row.generation_time
    created_at := row.created_at
    temperature := row.temperature
    prompt_hash := row.prompt_hash
    llm_config := row.llm_config
    dependencies := row.dependencies
    prompt := prompt }

/-- DocDatabase.get_document: the row with the given id joined with its
prompts row; none when the row (or its prompt) is absent.  On a closed
connection the query raises sqlite3.ProgrammingError, which the except clause
swallows, returning None. -/
def DocDatabase.get_document (s : DBState) (doc_id : List Char) : Option Document :=
  if s.closed then none
  else
    match tblGet s.documents doc_id with
    | none => none
    | some row =>
      match tblGet s.prompts row.prompt_hash with
      | none => none
      | some pr => some (mkDocument doc_id row pr.1)

/-- Insertion into a list sorted by created_at descending (ORDER BY
created_at DESC). -/
def insertByCreatedDesc (d : Document) : List Document → List Document
  | [] => [d]
  | e :: rest =>
    if e.created_at ≤ d.created_at then d :: e :: rest
    else e :: insertByCreatedDesc d rest

/-- Sort a result list by created_at descending. -/
def sortByCreatedDesc : List Document → List Document
  | [] => []
  | d :: rest => insertByCreatedDesc d (sortByCreatedDesc rest)

/-- DocDatabase.get_documents_by_path: all documents for a file path, joined
with their prompts rows, newest first.  On a closed connection the query
raises, the except clause swallows the error and returns the empty list. -/
def DocDatabase.get_documents_by_path (s : DBState) (file_path : List Char) :
    List Document :=
  if s.closed then []
  else
    sortByCreatedDesc
      ((s.documents.filter (fun e => e.2.file_path == file_path)).filterMap
        (fun e => (tblGet s.prompts e.2.prompt_hash).map (fun pr => mkDocument e.1 e.2 pr.1)))

/-- DocDatabase.delete_document: DELETE FROM documents WHERE id = ?; returns
whether a row was deleted (cursor.rowcount > 0).  On a closed connection the
statement raises, the except clause swallows the error and returns False with
the state unchanged. -/
def DocDatabase.delete_document (s : DBState) (doc_id : List Char) : DBState × Bool :=
  if s.closed then (s, false)
  else
    let deleted := (tblGet s.documents doc_id).isSome
    ({ s with documents := s.documents.filter (fun e => !(e.1 == doc_id)) }, deleted)

/-- DocDatabase.close: VACUUM then close the connection.  A second call finds
the connection already closed, VACUUM raises sqlite3.ProgrammingError, and the
except clause swallows it, leaving the state unchanged. -/
def DocDatabase.close (s : DBState) : DBState :=
  if s.closed then s else { s with closed := true }

/-- The last path component (pathlib PurePath.name): the characters after the
last slash. -/
def lastComponent (p : List Char) : List Char :=
  p.foldl (fun acc c => if c = '/' then [] else acc ++ [c]) []

/-- str.rfind for the dot character: highest index of a dot in the name, -1
when absent. -/
def rfindDot (name : List Char) : Int :=
  match List.findIdx? (fun c => c == '.') name.reverse with
  | none => -1
  | some jrev => (name.length : Int) - 1 - (jrev : Int)

/-- pathlib PurePath.suffix: with i the last index of a dot in the final
component, the characters from i on when 0 < i < len(name) - 1, else the empty
string. -/
def pathSuffix (p : List Char) : List Char :=
  let name := lastComponent p
  let i := rfindDot name
  if 0 < i ∧ i < (name.length : Int) - 1 then name.drop i.toNat else []

/-- Python str.lower over the characters of a string. -/
def lowerL (s : List Char) : List Char := s.map Char.toLower

/-- The extension-to-language table of BatchProcessor.process_file. -/
def lang_map : List (List Char × List Char) :=
  [(toL ".ts", toL "typescript"), (toL ".tsx", toL "typescript"),
   (toL ".js", toL "javascript"), (toL ".py", toL "python"),
   (toL ".java", toL "java")]

/-- The per-file outcome dict of BatchProcessor.process_file: one of the
status values success, failed or skipped, with the keys that status carries
(the wall-clock time entry of a success dict is not modelled). -/
inductive ProcessResult : Type where
  | success (file doc_id : List Char) (tokens : Int)
  | failed (file error : List Char)
  | skipped (file reason : List Char)
deriving DecidableEq

/-- The part of the generator result dict that process_file reads: doc_id and
metadata.tokens_used. -/
structure GenOk where
  doc_id : List Char
  tokens_used : Int
deriving DecidableEq

/-- The generation orchestrator as process_file sees it: generate_from_file
called with a file path and a language either returns a result or raises.  The
orchestrator lives in the docgen module, which is not part of this repository;
process_file is parameterized over it. -/
def GenFn : Type := List Char → List Char → Except (List Char) GenOk

/-- BatchProcessor.process_file: detect the language from the lowercased file
extension, return a skipped dict for an unsupported language without calling
the generator, otherwise call the generator and turn its outcome or its raised
error into a success or failed dict. -/
def BatchProcessor.process_file (gen : GenFn) (file : List Char) : ProcessResult :=
  let ext := lowerL (pathSuffix file)
  let lang := (tblGet lang_map ext).getD (toL "unknown")
  if lang = toL "unknown" then
    .skipped file (toL "Unsupported language")
  else
    match gen file lang with
    | .ok r => .success file r.doc_id r.tokens_used
    | .error e => .failed file e

/-- status == success. -/
def ProcessResult.isSuccess : ProcessResult → Bool
  | .success .. => true
  | _ => false

/-- status == failed. -/
def ProcessResult.isFailed : ProcessResult → Bool
  | .failed .. => true
  | _ => false

/-- status == skipped. -/
def ProcessResult.isSkipped : ProcessResult → Bool
  | .skipped .. => true
  | _ => false

/-- The tokens entry of a result dict, 0 when absent (only success dicts carry
one). -/
def ProcessResult.tokens : ProcessResult → Int
  | .success _ _ t => t
  | _ => 0

/-- The report returned by BatchProcessor.run.  Wall-clock total_time and the
estimated_cost (tokens / 1000 times a price read from the absent docgen
module's CONFIG) are not modelled. -/
structure BatchReport where
  total_files : Nat
  succeeded : Nat
  failed : Nat
  skipped : Nat
  total_tokens : Int
  results : List ProcessResult

/-- BatchProcessor.run over an already discovered file list: every file is
processed by process_file and the per-status counts and token total are
aggregated into the report.  The thread pool completes futures in a
nondeterministic order, so the results list is modelled in submission order;
the aggregate counts, the token total and membership in the results list do
not depend on that order. -/
def BatchProcessor.run (gen : GenFn) (files : List (List Char)) : BatchReport :=
  let results := files.map (BatchProcessor.process_file gen)
  { total_files := files.length
    succeeded := results.countP ProcessResult.isSuccess
    failed := results.countP ProcessResult.isFailed
    skipped := results.countP ProcessResult.isSkipped
    total_tokens := (results.map ProcessResult.tokens).sum
    results := results }

/-- The list of get_content results of a chunk list (the values the join of
chat_completion_simple consumes), with the first exception propagated. -/
def contentsOf : List ChatCompletionChunk → Except Unit (List PyVal)
  | [] => .ok []
  | c :: rest => do
    let v ← c.get_content
    let vs ← contentsOf rest
    .ok (v :: vs)

/-- A json.loads stub covering the two completion frames of the worked
Hello-world example stream (consistent with json.loads on those inputs). -/
def helloParse : List Char → Option PyVal := fun s =>
  if s = toL "\x7b\"choices\":[\x7b\"delta\":\x7b\"content\":\"Hello, \"\x7d\x7d]\x7d" then
    some (.dict [(toL "choices",
      .list [.dict [(toL "delta", .dict [(toL "content", .str (toL "Hello, "))])]])])
  else if s = toL "\x7b\"choices\":[\x7b\"delta\":\x7b\"content\":\"world!\"\x7d\x7d]\x7d" then
    some (.dict [(toL "choices",
      .list [.dict [(toL "delta", .dict [(toL "content", .str (toL "world!"))])]])])
  else none

/-- The SSE lines of the worked Hello-world example stream. -/
def helloLines : List (List Char) :=
  [toL "data: \x7b\"choices\":[\x7b\"delta\":\x7b\"content\":\"Hello, \"\x7d\x7d]\x7d",
   toL "data: \x7b\"choices\":[\x7b\"delta\":\x7b\"content\":\"world!\"\x7d\x7d]\x7d",
   toL "data: [DONE]"]

/-- A json.loads stub covering four valid JSON remainders — an object with a
done key, an ordinary object, an array and the null literal — each mapped as
json.loads maps it. -/
def doneParse : List Char → Option PyVal := fun s =>
  if s = toL "\x7b\"done\":true\x7d" then some (.dict [(toL "done", .bool true)])
  else if s = toL "\x7b\"id\":\"1\"\x7d" then some (.dict [(toL "id", .str (toL "1"))])
  else if s = toL "[1]" then some (.list [.int 1])
  else if s = toL "null" then some .null
  else none

/-- Concrete metadata used by the worked store examples. -/
def mdEx : DocMetadata :=
  { file_path := toL "a.ts", model := toL "m", tokens_used := 3, generation_time := 0,
    prompt_hash := [], temperature := 0, llm_config := .dict [], dependencies := [],
    created_at := some 0 }

/-- A freshly opened, empty store. -/
def dbEx : DBState := { documents := [], prompts := [], embeddings := [], closed := false }

/-- The documents row produced by saving the content body with mdEx under the
prompt P through the identity digest function. -/
def rowEx : DocRow :=
  { file_path := toL "a.ts", content := toL "body", model := toL "m", tokens_used := 3,
    generation_time := 0, created_at := 0, temperature := 0, prompt_hash := toL "P",
    llm_config := .dict [], dependencies := [] }

/-- The store state after that save. -/
def sEx : DBState :=
  { documents := [(toL "a.ts:P", rowEx)], prompts := [(toL "P", (toL "P", 0))],
    embeddings := [], closed := false }

/-- The documents row after saving the content one instead. -/
def rowOne : DocRow :=
  { file_path := toL "a.ts", content := toL "one", model := toL "m", tokens_used := 3,
    generation_time := 0, created_at := 0, temperature := 0, prompt_hash := toL "P",
    llm_config := .dict [], dependencies := [] }

/-- The store state after saving the content one into the empty store. -/
def sOne : DBState :=
  { documents := [(toL "a.ts:P", rowOne)], prompts := [(toL "P", (toL "P", 0))],
    embeddings := [], closed := false }

/-- The documents row after overwriting with the content two. -/
def rowTwo : DocRow :=
  { file_path := toL "a.ts", content := toL "two", model := toL "m", tokens_used := 3,
    generation_time := 0, created_at := 0, temperature := 0, prompt_hash := toL "P",
    llm_config := .dict [], dependencies := [] }

/-- The store state after the second save of the same path and prompt. -/
def sTwo : DBState :=
  { documents := [(toL "a.ts:P", rowTwo)], prompts := [(toL "P", (toL "P", 0))],
    embeddings := [], closed := false }

/-- An orchestrator stub that raises a transport error for one particular file
and succeeds on every other. -/
def gen3 : GenFn := fun file _ =>
  if file = toL "b.py" then .error (toL "transport error")
  else .ok { doc_id := toL "d1", tokens_used := 5 }

/-- A three-item work list whose second item makes gen3 raise. -/
def files3 : List (List Char) := [toL "a.py", toL "b.py", toL "c.py"]

/-- An orchestrator stub that always succeeds. -/
def genOkStub : GenFn := fun _ _ => .ok { doc_id := toL "d2", tokens_used := 1 }

/-- An orchestrator stub that always raises. -/
def genErrStub : GenFn := fun _ _ => .error (toL "transport error")

/-- A prefix is recognized by startsWithL in front of any continuation. -/
theorem startsWithL_append (p s : List Char) : startsWithL p (p ++ s) = true := by
  induction p with
  | nil => rfl
  | cons c cs ih => simp [startsWithL, ih]

/-- Looking up the key just put at the head of a table. -/
theorem tblGet_head {β : Type} (k : List Char) (v : β) (t : List (List Char × β)) :
    tblGet ((k, v) :: t) k = some v := by
  simp [tblGet]

/-- Filtering out a key removes it from lookup. -/
theorem tblGet_filter_ne_self {β : Type} (t : List (List Char × β)) (k : List Char) :
    tblGet (t.filter (fun e => !(e.1 == k))) k = none := by
  induction t with
  | nil => rfl
  | cons e t ih =>
    obtain ⟨k', v'⟩ := e
    by_cases h : k' = k
    · simp [List.filter_cons, h, ih]
    · simp [List.filter_cons, h, tblGet, ih]

/-- Filtering out one key leaves every other lookup unchanged. -/
theorem tblGet_filter_ne_of_ne {β : Type} (t : List (List Char × β)) (k k' : List Char)
    (h : k' ≠ k) : tblGet (t.filter (fun e => !(e.1 == k))) k' = tblGet t k' := by
  induction t with
  | nil => rfl
  | cons e t ih =>
    obtain ⟨k₀, v₀⟩ := e
    by_cases hk : k₀ = k
    · have hk0 : ¬k₀ = k' := by rw [hk]; exact fun hh => h hh.symm
      simp [List.filter_cons, hk, tblGet, hk0, Ne.symm h, ih]
    · by_cases hk' : k₀ = k'
      · simp [List.filter_cons, hk, tblGet, hk', h]
      · simp [List.filter_cons, hk, tblGet, hk', ih]

/-- A lookup of the key just upserted returns the upserted value. -/
theorem tblGet_upsert_self {β : Type} (t : List (List Char × β)) (k : List Char) (v : β) :
    tblGet (upsert t k v) k = some v := by
  simp [upsert, tblGet]

/-- A failed lookup means no entry carries the key. -/
theorem tblGet_none_forall {β : Type} (t : List (List Char × β)) (k : List Char)
    (h : tblGet t k = none) : ∀ e ∈ t, e.1 ≠ k := by
  induction t with
  | nil => intro e he; cases he
  | cons e t ih =>
    obtain ⟨k', v'⟩ := e
    intro f hf
    by_cases hk : k' = k
    · simp [tblGet, hk] at h
    · rcases List.mem_cons.mp hf with hf | hf
      · simpa [hf] using hk
      · exact ih (by simpa [tblGet, hk] using h) f hf

/-- Filtering out an absent key leaves the table unchanged. -/
theorem filter_ne_eq_self_of_none {β : Type} (t : List (List Char × β)) (k : List Char)
    (h : tblGet t k = none) : t.filter (fun e => !(e.1 == k)) = t := by
  rw [List.filter_eq_self]
  intro e he
  simpa using tblGet_none_forall t k h e he

/-- A successful lookup returns an entry of the table. -/
theorem tblGet_mem {β : Type} (t : List (List Char × β)) (k : List Char) (v : β)
    (h : tblGet t k = some v) : (k, v) ∈ t := by
  induction t with
  | nil => cases h
  | cons e t ih =>
    obtain ⟨k', v'⟩ := e
    by_cases hk : k' = k
    · subst hk
      simp [tblGet] at h
      simp [h]
    · simp [tblGet, hk] at h
      exact List.mem_cons_of_mem _ (ih h)

/-- C7: for every role in the set of system, user and assistant and every
content string, constructing a Message succeeds; for every role outside that
set, construction fails with the validation error. -/
theorem message_role_validation (role content : List Char) :
    ((role = toL "user" ∨ role = toL "assistant" ∨ role = toL "system") →
      mkMessage role content = .ok { role := role, content := content }) ∧
    (¬(role = toL "user" ∨ role = toL "assistant" ∨ role = toL "system") →
      mkMessage role content = .error (toL "Invalid role")) := by
  constructor
  · intro h
    simp [mkMessage, h]
  · intro h
    simp [mkMessage, h]

/-- Witness for message_role_validation at the valid role system and the
invalid role boss. -/
theorem message_role_validation_witness :
    ((toL "system" = toL "user" ∨ toL "system" = toL "assistant" ∨
        toL "system" = toL "system") ∧
      mkMessage (toL "system") (toL "hi")
        = .ok { role := toL "system", content := toL "hi" }) ∧
    (¬(toL "boss" = toL "user" ∨ toL "boss" = toL "assistant" ∨
        toL "boss" = toL "system") ∧
      mkMessage (toL "boss") (toL "hi") = .error (toL "Invalid role")) :=
  ⟨⟨by decide, (message_role_validation (toL "system") (toL "hi")).1 (by decide)⟩,
   ⟨by decide, (message_role_validation (toL "boss") (toL "hi")).2 (by decide)⟩⟩

/-- C9 counterexample: a chunk whose first choice is a dict carrying a
non-dict delta value makes get_content raise (AttributeError on delta.get), so
get_content is not total on all constructible chunks, although it does handle
an empty choices list. -/
theorem get_content_nondict_delta_raises :
    ChatCompletionChunk.get_content
      { id := .str [], object := .str [], created := .int 0, model := .str [],
        choices := .list [.dict [(toL "delta", .int 5)]],
        system_fingerprint := .null, prompt_filter_results := .null }
      = .error () := by
  rfl

/-- C9 amended: on an empty choices list get_content returns the empty string
without failing, and when the first choice is a dict whose delta entry is
absent or itself a dict, it returns that delta's content entry, defaulting to
the empty string; outside these shapes get_content is not guaranteed to
succeed, as the counterexample's non-dict delta value shows. -/
theorem get_content_wellformed_cases (c : ChatCompletionChunk) :
    (c.choices = .list [] → c.get_content = .ok (.str [])) ∧
    (∀ kvs rest, c.choices = .list (.dict kvs :: rest) →
      (tblGet kvs (toL "delta") = none → c.get_content = .ok (.str [])) ∧
      (∀ dkvs, tblGet kvs (toL "delta") = some (.dict dkvs) →
        c.get_content = .ok ((tblGet dkvs (toL "content")).getD (.str [])))) := by
  constructor
  · intro h
    simp [ChatCompletionChunk.get_content, h, PyVal.truthy, pure, Except.pure]
  · intro kvs rest h
    constructor
    · intro hnone
      simp only [ChatCompletionChunk.get_content, h]
      simp [PyVal.truthy, pyLen, pyIndexZero, pyGetD, hnone, tblGet, pure,
        Except.pure, Except.bind, bind]
    · intro dkvs hsome
      simp only [ChatCompletionChunk.get_content, h]
      simp [PyVal.truthy, pyLen, pyIndexZero, pyGetD, hsome, pure, Except.pure,
        Except.bind, bind]

/-- Witness for get_content_wellformed_cases at a chunk whose first choice
carries the delta content Hi. -/
theorem get_content_wellformed_cases_witness :
    (({ id := .str [], object := .str [], created := .int 0, model := .str [],
          choices := .list [.dict [(toL "delta", .dict [(toL "content", .str (toL "Hi"))])]],
          system_fingerprint := .null, prompt_filter_results := .null } :
        ChatCompletionChunk).choices
      = .list (.dict [(toL "delta", .dict [(toL "content", .str (toL "Hi"))])] :: [])) ∧
    tblGet [(toL "delta", PyVal.dict [(toL "content", PyVal.str (toL "Hi"))])] (toL "delta")
      = some (PyVal.dict [(toL "content", PyVal.str (toL "Hi"))]) ∧
    ChatCompletionChunk.get_content
      { id := .str [], object := .str [], created := .int 0, model := .str [],
        choices := .list [.dict [(toL "delta", .dict [(toL "content", .str (toL "Hi"))])]],
        system_fingerprint := .null, prompt_filter_results := .null }
      = .ok ((tblGet [(toL "content", PyVal.str (toL "Hi"))] (toL "content")).getD (.str [])) :=
  ⟨rfl, rfl,
    ((get_content_wellformed_cases _).2
      [(toL "delta", PyVal.dict [(toL "content", PyVal.str (toL "Hi"))])] [] rfl).2
      [(toL "content", PyVal.str (toL "Hi"))] rfl⟩

/-- When every chunk's content value is a string, the join inside
chat_completion_simple returns their concatenation in order. -/
theorem joinContents_of_contents (cs : List ChatCompletionChunk) (ss : List (List Char))
    (h : contentsOf cs = .ok (ss.map PyVal.str)) : joinContents cs = .ok ss.flatten := by
  induction cs generalizing ss with
  | nil =>
    cases ss with
    | nil => rfl
    | cons s ss => simp [contentsOf] at h
  | cons c cs ih =>
    rcases hg : c.get_content with e | v
    · simp [contentsOf, hg, Except.bind, bind] at h
    · rcases hc : contentsOf cs with e' | vs
      · simp [contentsOf, hg, hc, Except.bind, bind] at h
      · simp [contentsOf, hg, hc, Except.bind, bind] at h
        cases ss with
        | nil => simp at h
        | cons s ss =>
          simp at h
          obtain ⟨hv, hvs⟩ := h
          simp [joinContents, hg, hv, Except.bind, bind, ih ss (by rw [hc, hvs])]

/-- C2: when the underlying completion stream yields its chunks without
raising, and the get_content values of those chunks are the strings ss,
chat_completion_simple returns the whitespace-stripped concatenation of ss in
arrival order; in particular, with zero chunks the concatenation is empty and
the result is the empty string rather than a failure. -/
theorem simple_completion_concat (parseJson : List Char → Option PyVal)
    (lines : List (List Char)) (ss : List (List Char))
    (hraised : (PollinationClient.chat_completion parseJson lines).raised = false)
    (hcontents : contentsOf (PollinationClient.chat_completion parseJson lines).yielded
      = .ok (ss.map PyVal.str)) :
    PollinationClient.chat_completion_simple parseJson lines
      = .ok (pyStrip ss.flatten) := by
  simp [PollinationClient.chat_completion_simple,
    joinContents_of_contents _ _ hcontents, hraised]

/-- Witness for simple_completion_concat: the Hello-world stream concatenates
to the trimmed string, and a stream that is immediately done yields the empty
string. -/
theorem simple_completion_concat_witness :
    (PollinationClient.chat_completion helloParse helloLines).raised = false ∧
    contentsOf (PollinationClient.chat_completion helloParse helloLines).yielded
      = .ok ([toL "Hello, ", toL "world!"].map PyVal.str) ∧
    PollinationClient.chat_completion_simple helloParse helloLines
      = .ok (pyStrip ([toL "Hello, ", toL "world!"]).flatten) ∧
    pyStrip ([toL "Hello, ", toL "world!"]).flatten = toL "Hello, world!" ∧
    (PollinationClient.chat_completion helloParse [toL "data: [DONE]"]).raised = false ∧
    contentsOf (PollinationClient.chat_completion helloParse [toL "data: [DONE]"]).yielded
      = .ok (([] : List (List Char)).map PyVal.str) ∧
    PollinationClient.chat_completion_simple helloParse [toL "data: [DONE]"]
      = .ok (pyStrip ([] : List (List Char)).flatten) :=
  ⟨rfl, rfl,
    simple_completion_concat helloParse helloLines [toL "Hello, ", toL "world!"] rfl rfl,
    rfl, rfl, rfl,
    simple_completion_concat helloParse [toL "data: [DONE]"] [] rfl rfl⟩

/-- The characters of the SSE data marker. -/
theorem toL_data_eq : toL "data: " = 'd' :: 'a' :: 't' :: 'a' :: ':' :: ' ' :: [] := rfl

/-- A line that strips to the empty string or to a comment starting with a
colon is skipped by the line parser. -/
theorem parse_skip (pj : List Char → Option PyVal) (line : List Char)
    (h : pyStrip line = [] ∨ (pyStrip line).head? = some ':') :
    PollinationClient._parse_sse_line pj line = none := by
  simp [PollinationClient._parse_sse_line, h]

/-- On a line that strips to the data marker followed by r, the line parser
returns the done sentinel when r trims to the done token, and otherwise the
json.loads result on r. -/
theorem parse_data (pj : List Char → Option PyVal) (line r : List Char)
    (h : pyStrip line = toL "data: " ++ r) :
    PollinationClient._parse_sse_line pj line =
      (if pyStrip r = toL "[DONE]" then some (.dict [(toL "done", .bool true)])
       else pj r) := by
  rw [PollinationClient._parse_sse_line]
  rw [h, toL_data_eq]
  have hs : startsWithL ['d', 'a', 't', 'a', ':', ' ']
      ('d' :: 'a' :: 't' :: 'a' :: ':' :: ' ' :: r) = true :=
    startsWithL_append ('d' :: 'a' :: 't' :: 'a' :: ':' :: ' ' :: []) r
  simp [hs]

/-- A nonblank, noncomment line without the data marker is skipped by the line
parser. -/
theorem parse_other (pj : List Char → Option PyVal) (line : List Char)
    (h1 : pyStrip line ≠ []) (h2 : (pyStrip line).head? ≠ some ':')
    (h3 : startsWithL (toL "data: ") (pyStrip line) = false) :
    PollinationClient._parse_sse_line pj line = none := by
  simp [PollinationClient._parse_sse_line, h1, h2, h3]

/-- One step of the streaming loop on a nonempty line, as a case analysis on
the parsed value. -/
theorem cc_step (pj : List Char → Option PyVal) (line : List Char)
    (rest : List (List Char)) (h : line ≠ []) :
    PollinationClient.chat_completion pj (line :: rest) =
      match PollinationClient._parse_sse_line pj line with
      | none => PollinationClient.chat_completion pj rest
      | some .null => PollinationClient.chat_completion pj rest
      | some (.dict kvs) =>
        if ((tblGet kvs (toL "done")).getD .null).truthy then
          { yielded := [], raised := false }
        else
          { yielded := mkChunk kvs :: (PollinationClient.chat_completion pj rest).yielded,
            raised := (PollinationClient.chat_completion pj rest).raised }
      | some _ => { yielded := [], raised := true } := by
  conv_lhs => rw [PollinationClient.chat_completion]
  simp [h]

/-- C1 counterexample, four concrete streams, one per flaw in the claim: a
data line whose remainder is the valid JSON object carrying a truthy done key
terminates the stream with no chunk at all (the loop cannot tell it apart
from the internal [DONE] sentinel), although the claim promises exactly one
chunk per valid-JSON data line and another for the following valid frame; a
line with whitespace before the data marker — not literally prefixed
'data: ', so ignored per the claim — yields a chunk, because the line is
stripped before classification; a data line with the valid JSON array [1]
yields no chunk and raises; and a data line with the valid JSON literal null
is skipped (json.loads returns Python None, which the loop's parsed-is-None
check treats as a skipped line), yielding no chunk of its own while decoding
continues. -/
theorem sse_done_key_frame_terminates :
    PollinationClient.chat_completion doneParse
      [toL "data: \x7b\"done\":true\x7d", toL "data: \x7b\"id\":\"1\"\x7d"]
      = { yielded := [], raised := false } ∧
    PollinationClient.chat_completion doneParse
      [toL "  data: \x7b\"id\":\"1\"\x7d"]
      = { yielded := [mkChunk [(toL "id", PyVal.str (toL "1"))]], raised := false } ∧
    PollinationClient.chat_completion doneParse [toL "data: [1]"]
      = { yielded := [], raised := true } ∧
    PollinationClient.chat_completion doneParse
      [toL "data: null", toL "data: \x7b\"id\":\"1\"\x7d"]
      = { yielded := [mkChunk [(toL "id", PyVal.str (toL "1"))]], raised := false } :=
  ⟨rfl, rfl, rfl, rfl⟩

/-- C1 amended: classifying each input line by its whitespace-stripped form, a
line that strips to the empty string or starts with a colon yields nothing; a
stripped line of the data marker followed by a remainder that trims to the
done token terminates the chunk sequence; a remainder with malformed JSON is
skipped and decoding continues; a remainder parsing to a JSON object without a
truthy done entry yields exactly one chunk, while an object with a truthy done
entry terminates the sequence instead, the JSON null literal is skipped like a
blank line, and any other valid non-object JSON makes the stream raise; any
other stripped line shape is ignored.  Each departure from the original claim
is exhibited concretely by the counterexample. -/
theorem sse_stream_decode_cases (parseJson : List Char → Option PyVal)
    (line : List Char) (rest : List (List Char)) :
    ((pyStrip line = [] ∨ (pyStrip line).head? = some ':') →
      PollinationClient.chat_completion parseJson (line :: rest)
        = PollinationClient.chat_completion parseJson rest) ∧
    (∀ r, pyStrip line = toL "data: " ++ r →
      (pyStrip r = toL "[DONE]" →
        PollinationClient.chat_completion parseJson (line :: rest)
          = { yielded := [], raised := false }) ∧
      (pyStrip r ≠ toL "[DONE]" →
        (parseJson r = none →
          PollinationClient.chat_completion parseJson (line :: rest)
            = PollinationClient.chat_completion parseJson rest) ∧
        (∀ kvs, parseJson r = some (.dict kvs) →
          (((tblGet kvs (toL "done")).getD .null).truthy = false →
            PollinationClient.chat_completion parseJson (line :: rest)
              = { yielded := mkChunk kvs
                    :: (PollinationClient.chat_completion parseJson rest).yielded,
                  raised := (PollinationClient.chat_completion parseJson rest).raised }) ∧
          (((tblGet kvs (toL "done")).getD .null).truthy = true →
            PollinationClient.chat_completion parseJson (line :: rest)
              = { yielded := [], raised := false })) ∧
        (parseJson r = some .null →
          PollinationClient.chat_completion parseJson (line :: rest)
            = PollinationClient.chat_completion parseJson rest) ∧
        (∀ v, parseJson r = some v → v ≠ PyVal.null → (∀ kvs, v ≠ PyVal.dict kvs) →
          PollinationClient.chat_completion parseJson (line :: rest)
            = { yielded := [], raised := true }))) ∧
    ((pyStrip line ≠ [] ∧ (pyStrip line).head? ≠ some ':' ∧
        startsWithL (toL "data: ") (pyStrip line) = false) →
      PollinationClient.chat_completion parseJson (line :: rest)
        = PollinationClient.chat_completion parseJson rest) := by
  refine ⟨?_, ?_, ?_⟩
  · intro h
    by_cases hl : line = []
    · subst hl
      conv_lhs => rw [PollinationClient.chat_completion]
      simp
    · rw [cc_step parseJson line rest hl, parse_skip parseJson line h]
  · intro r h
    have hl : line ≠ [] := by
      intro he
      subst he
      rw [show pyStrip [] = [] from rfl, toL_data_eq] at h
      simp at h
    rw [cc_step parseJson line rest hl, parse_data parseJson line r h]
    constructor
    · intro hd
      rw [if_pos hd]
      rfl
    · intro hd
      rw [if_neg hd]
      refine ⟨?_, ?_, ?_, ?_⟩
      · intro hn
        rw [hn]
      · intro kvs hk
        rw [hk]
        constructor
        · intro ht
          simp [ht]
        · intro ht
          simp [ht]
      · intro hn
        rw [hn]
      · intro v hv hnn hnd
        rw [hv]
        rcases v with _ | b | n | s | xs | kvs
        · exact absurd rfl hnn
        · rfl
        · rfl
        · rfl
        · rfl
        · exact absurd rfl (hnd kvs)
  · rintro ⟨h1, h2, h3⟩
    have hl : line ≠ [] := by
      intro he
      subst he
      exact h1 rfl
    rw [cc_step parseJson line rest hl, parse_other parseJson line h1 h2 h3]

/-- Witness for sse_stream_decode_cases at a data line carrying a valid JSON
object without a done key: exactly one chunk is yielded. -/
theorem sse_stream_decode_cases_witness :
    (pyStrip (toL "data: \x7b\"id\":\"1\"\x7d")
      = toL "data: " ++ toL "\x7b\"id\":\"1\"\x7d") ∧
    pyStrip (toL "\x7b\"id\":\"1\"\x7d") ≠ toL "[DONE]" ∧
    doneParse (toL "\x7b\"id\":\"1\"\x7d") = some (.dict [(toL "id", .str (toL "1"))]) ∧
    ((tblGet [(toL "id", PyVal.str (toL "1"))] (toL "done")).getD .null).truthy = false ∧
    PollinationClient.chat_completion doneParse [toL "data: \x7b\"id\":\"1\"\x7d"]
      = { yielded := [mkChunk [(toL "id", PyVal.str (toL "1"))]], raised := false } :=
  ⟨rfl, by decide, rfl, rfl,
    ((((sse_stream_decode_cases doneParse (toL "data: \x7b\"id\":\"1\"\x7d") []).2.1
        (toL "\x7b\"id\":\"1\"\x7d") rfl).2 (by decide)).2.1
        [(toL "id", PyVal.str (toL "1"))] rfl).1 rfl⟩

/-- Filtering a key out twice is the same as filtering it out once. -/
theorem filter_ne_idem {β : Type} (t : List (List Char × β)) (k : List Char) :
    (t.filter (fun e => !(e.1 == k))).filter (fun e => !(e.1 == k))
      = t.filter (fun e => !(e.1 == k)) := by
  rw [List.filter_filter]
  simp

/-- C4: round-trip — get_document applied to the id returned by save_document
yields a document whose content equals the saved content and whose tokens_used
and file_path (sourcePath) equal those of the metadata. -/
theorem save_get_roundtrip (sha256hex : List Char → List Char) (s : DBState)
    (hopen : s.closed = false) (content : List Char) (metadata : DocMetadata)
    (prompt : List Char) (vector : Option (List Char)) (now : Int)
    (s1 : DBState) (doc_id : List Char)
    (hsave : DocDatabase.save_document sha256hex s content metadata prompt vector now
      = .ok (s1, doc_id)) :
    ∃ doc,
      DocDatabase.get_document s1 doc_id = some doc ∧
      doc.content = content ∧
      doc.tokens_used = metadata.tokens_used ∧
      doc.file_path = metadata.file_path := by
  rw [DocDatabase.save_document] at hsave
  simp only [hopen, Bool.false_eq_true, if_false, Except.ok.injEq, Prod.mk.injEq] at hsave
  obtain ⟨hs1, hdid⟩ := hsave
  subst hs1
  subst hdid
  refine ⟨mkDocument
      (DocDatabase._generate_doc_id sha256hex metadata.file_path
        (DocDatabase._hash_prompt sha256hex prompt))
      { file_path := metadata.file_path, content := content, model := metadata.model,
        tokens_used := metadata.tokens_used, generation_time := metadata.generation_time,
        created_at := metadata.created_at.getD now, temperature := metadata.temperature,
        prompt_hash := DocDatabase._hash_prompt sha256hex prompt,
        llm_config := metadata.llm_config, dependencies := metadata.dependencies }
      prompt, ?_, rfl, rfl, rfl⟩
  simp [DocDatabase.get_document, hopen, tblGet_upsert_self, mkDocument]

/-- Witness for save_get_roundtrip: saving the content body into a fresh store
and reading the returned id back gives that content and metadata. -/
theorem save_get_roundtrip_witness :
    dbEx.closed = false ∧
    DocDatabase.save_document (fun x => x) dbEx (toL "body") mdEx (toL "P") none 0
      = .ok (sEx, toL "a.ts:P") ∧
    ∃ doc,
      DocDatabase.get_document sEx (toL "a.ts:P") = some doc ∧
      doc.content = toL "body" ∧
      doc.tokens_used = mdEx.tokens_used ∧
      doc.file_path = mdEx.file_path :=
  ⟨rfl, rfl,
    save_get_roundtrip (fun x => x) dbEx rfl (toL "body") mdEx (toL "P") none 0
      sEx (toL "a.ts:P") rfl⟩

/-- C3: saving twice under the same source path and prompt returns the same
derived id both times — the first 20 hex characters of the sha256 digest of
the path, a colon and the prompt hash, never a caller-chosen value — and, in
any store whose records under that pair already sit at the derived id, leaves
exactly one record under the pair, holding the second content. -/
theorem save_document_idempotent_upsert (sha256hex : List Char → List Char) (s : DBState)
    (hopen : s.closed = false) (fp prompt c1 c2 : List Char)
    (md1 md2 : DocMetadata) (hfp1 : md1.file_path = fp) (hfp2 : md2.file_path = fp)
    (v1 v2 : Option (List Char)) (t1 t2 : Int)
    (hderived : ∀ e ∈ s.documents,
      e.2.file_path = fp → e.2.prompt_hash = DocDatabase._hash_prompt sha256hex prompt →
      e.1 = DocDatabase._generate_doc_id sha256hex fp (DocDatabase._hash_prompt sha256hex prompt)) :
    ∀ s1 id1, DocDatabase.save_document sha256hex s c1 md1 prompt v1 t1 = .ok (s1, id1) →
    ∀ s2 id2, DocDatabase.save_document sha256hex s1 c2 md2 prompt v2 t2 = .ok (s2, id2) →
      id1 = DocDatabase._generate_doc_id sha256hex fp (DocDatabase._hash_prompt sha256hex prompt) ∧
      id2 = id1 ∧
      ∃ row,
        s2.documents.filter (fun e =>
            e.2.file_path == fp && e.2.prompt_hash == DocDatabase._hash_prompt sha256hex prompt)
          = [(id1, row)] ∧
        row.content = c2 := by
  intro s1 id1 h1 s2 id2 h2
  rw [DocDatabase.save_document] at h1
  simp only [hopen, Bool.false_eq_true, if_false, Except.ok.injEq, Prod.mk.injEq] at h1
  obtain ⟨hs1, hid1⟩ := h1
  subst hs1
  rw [DocDatabase.save_document] at h2
  simp only [hopen, Bool.false_eq_true, if_false, Except.ok.injEq, Prod.mk.injEq] at h2
  obtain ⟨hs2, hid2⟩ := h2
  subst hs2
  subst hid1
  subst hid2
  rw [hfp1, hfp2]
  refine ⟨rfl, rfl, ?_⟩
  refine ⟨{ file_path := fp, content := c2, model := md2.model,
            tokens_used := md2.tokens_used, generation_time := md2.generation_time,
            created_at := md2.created_at.getD t2, temperature := md2.temperature,
            prompt_hash := DocDatabase._hash_prompt sha256hex prompt,
            llm_config := md2.llm_config, dependencies := md2.dependencies }, ?_, rfl⟩
  have hnil : (s.documents.filter (fun e => !(e.1 ==
        DocDatabase._generate_doc_id sha256hex fp
          (DocDatabase._hash_prompt sha256hex prompt)))).filter
      (fun e => e.2.file_path == fp &&
        e.2.prompt_hash == DocDatabase._hash_prompt sha256hex prompt) = [] := by
    rw [List.filter_eq_nil_iff]
    intro e he
    obtain ⟨hmem, hne⟩ := List.mem_filter.mp he
    intro hpm
    simp at hpm hne
    exact hne (hderived e hmem hpm.1 hpm.2)
  simp only [upsert, List.filter_cons]
  simp [hnil, filter_ne_idem]

/-- Witness for save_document_idempotent_upsert: saving one then two for the
same path and prompt leaves one record holding two. -/
theorem save_document_idempotent_upsert_witness :
    (∀ e ∈ dbEx.documents, e.2.file_path = toL "a.ts" →
      e.2.prompt_hash = DocDatabase._hash_prompt (fun x => x) (toL "P") →
      e.1 = DocDatabase._generate_doc_id (fun x => x) (toL "a.ts")
        (DocDatabase._hash_prompt (fun x => x) (toL "P"))) ∧
    (toL "a.ts:P" = DocDatabase._generate_doc_id (fun x => x) (toL "a.ts")
        (DocDatabase._hash_prompt (fun x => x) (toL "P")) ∧
      toL "a.ts:P" = toL "a.ts:P" ∧
      ∃ row,
        sTwo.documents.filter (fun e =>
            e.2.file_path == toL "a.ts" &&
            e.2.prompt_hash == DocDatabase._hash_prompt (fun x => x) (toL "P"))
          = [(toL "a.ts:P", row)] ∧
        row.content = toL "two") :=
  ⟨by simp [dbEx],
    save_document_idempotent_upsert (fun x => x) dbEx rfl (toL "a.ts") (toL "P")
      (toL "one") (toL "two") mdEx mdEx rfl rfl none none 0 0 (by simp [dbEx])
      sOne (toL "a.ts:P") rfl sTwo (toL "a.ts:P") rfl⟩

/-- C10: deleting a stored document returns true and makes a subsequent get of
that id return the not-found result, while the prompts table, the embeddings
table and every other document id are untouched; deleting an absent id returns
false and changes nothing. -/
theorem delete_document_frame (s : DBState) (hopen : s.closed = false)
    (doc_id : List Char) :
    (∀ row, tblGet s.documents doc_id = some row →
      (DocDatabase.delete_document s doc_id).2 = true ∧
      DocDatabase.get_document (DocDatabase.delete_document s doc_id).1 doc_id = none ∧
      (DocDatabase.delete_document s doc_id).1.prompts = s.prompts ∧
      (DocDatabase.delete_document s doc_id).1.embeddings = s.embeddings ∧
      (∀ other, other ≠ doc_id →
        tblGet (DocDatabase.delete_document s doc_id).1.documents other
          = tblGet s.documents other)) ∧
    (tblGet s.documents doc_id = none →
      DocDatabase.delete_document s doc_id = (s, false)) := by
  obtain ⟨sd, sp, se, sc⟩ := s
  simp only at hopen
  subst hopen
  constructor
  · intro row hrow
    refine ⟨?_, ?_, ?_, ?_, ?_⟩
    · simp [DocDatabase.delete_document, hrow]
    · simp [DocDatabase.delete_document, DocDatabase.get_document,
        tblGet_filter_ne_self]
    · simp [DocDatabase.delete_document]
    · simp [DocDatabase.delete_document]
    · intro other hother
      simp [DocDatabase.delete_document, tblGet_filter_ne_of_ne _ _ _ hother]
  · intro hnone
    simp [DocDatabase.delete_document, hnone, filter_ne_eq_self_of_none _ _ hnone]

/-- Witness for delete_document_frame at a one-document store: the present id
is deleted with its prompt left behind, and a missing id changes nothing. -/
theorem delete_document_frame_witness :
    sEx.closed = false ∧
    tblGet sEx.documents (toL "a.ts:P") = some rowEx ∧
    ((DocDatabase.delete_document sEx (toL "a.ts:P")).2 = true ∧
      DocDatabase.get_document (DocDatabase.delete_document sEx (toL "a.ts:P")).1
        (toL "a.ts:P") = none ∧
      (DocDatabase.delete_document sEx (toL "a.ts:P")).1.prompts = sEx.prompts ∧
      (DocDatabase.delete_document sEx (toL "a.ts:P")).1.embeddings = sEx.embeddings ∧
      (∀ other, other ≠ toL "a.ts:P" →
        tblGet (DocDatabase.delete_document sEx (toL "a.ts:P")).1.documents other
          = tblGet sEx.documents other)) ∧
    tblGet sEx.documents (toL "missing") = none ∧
    DocDatabase.delete_document sEx (toL "missing") = (sEx, false) :=
  ⟨rfl, rfl,
    (delete_document_frame sEx rfl (toL "a.ts:P")).1 rowEx rfl,
    rfl,
    (delete_document_frame sEx rfl (toL "missing")).2 rfl⟩

/-- C8 counterexample: after close, reading a previously saved document
silently returns the not-found result, listing returns the empty list, and
delete returns false — none of them fails with a closed-store error (the code
has no such error; sqlite's error is caught and swallowed on those paths). -/
theorem get_after_close_returns_none :
    DocDatabase.save_document (fun x => x) dbEx (toL "body") mdEx (toL "P") none 0
      = .ok (sEx, toL "a.ts:P") ∧
    (DocDatabase.get_document sEx (toL "a.ts:P")).isSome = true ∧
    DocDatabase.get_document (DocDatabase.close sEx) (toL "a.ts:P") = none ∧
    DocDatabase.get_documents_by_path (DocDatabase.close sEx) (toL "a.ts") = [] ∧
    DocDatabase.delete_document (DocDatabase.close sEx) (toL "a.ts:P")
      = (DocDatabase.close sEx, false) :=
  ⟨rfl, rfl, rfl, rfl, rfl⟩

/-- C8 amended: close marks the connection closed and a second close is a
no-op (safe, the sqlite error it provokes is swallowed); afterwards
save_document raises, while get_document returns the not-found result,
get_documents_by_path returns the empty list and delete_document returns
false with the state unchanged — no dedicated closed-store error exists. -/
theorem close_postconditions (sha256hex : List Char → List Char) (s : DBState)
    (content : List Char) (metadata : DocMetadata) (prompt : List Char)
    (vector : Option (List Char)) (now : Int) (doc_id file_path : List Char) :
    (DocDatabase.close s).closed = true ∧
    DocDatabase.close (DocDatabase.close s) = DocDatabase.close s ∧
    DocDatabase.save_document sha256hex (DocDatabase.close s) content metadata prompt
      vector now = .error () ∧
    DocDatabase.get_document (DocDatabase.close s) doc_id = none ∧
    DocDatabase.get_documents_by_path (DocDatabase.close s) file_path = [] ∧
    DocDatabase.delete_document (DocDatabase.close s) doc_id
      = (DocDatabase.close s, false) := by
  obtain ⟨sd, sp, se, sc⟩ := s
  cases sc
  · exact ⟨rfl, rfl, rfl, rfl, rfl, rfl⟩
  · exact ⟨rfl, rfl, rfl, rfl, rfl, rfl⟩

/-- Each batch result dict carries exactly one of the three status values, so
the three counts always partition the result list. -/
theorem countP_status_partition (rs : List ProcessResult) :
    rs.countP ProcessResult.isSuccess + rs.countP ProcessResult.isFailed
      + rs.countP ProcessResult.isSkipped = rs.length := by
  induction rs with
  | nil => rfl
  | cons r rs ih =>
    cases r <;>
      simp [List.countP_cons, ProcessResult.isSuccess, ProcessResult.isFailed,
        ProcessResult.isSkipped] <;>
      omega

/-- Every language in the extension table is a supported one. -/
theorem lang_map_values_ne_unknown : ∀ kv ∈ lang_map, kv.2 ≠ toL "unknown" := by
  decide

/-- C5: a batch run always completes with one result per work item, the
success, failure and skip counts partition the items, and every item with a
supported language whose generation call raises a transport error appears in
the results as a failed entry carrying that error. -/
theorem batch_run_isolates_failures (gen : GenFn) (files : List (List Char)) :
    (BatchProcessor.run gen files).results.length = files.length ∧
    (∀ f ∈ files, BatchProcessor.process_file gen f
      ∈ (BatchProcessor.run gen files).results) ∧
    (BatchProcessor.run gen files).succeeded + (BatchProcessor.run gen files).failed
        + (BatchProcessor.run gen files).skipped = files.length ∧
    (∀ f ∈ files, ∀ lang, tblGet lang_map (lowerL (pathSuffix f)) = some lang →
      ∀ e, gen f lang = .error e →
        ProcessResult.failed f e ∈ (BatchProcessor.run gen files).results) := by
  refine ⟨?_, ?_, ?_, ?_⟩
  · simp [BatchProcessor.run]
  · intro f hf
    simp only [BatchProcessor.run]
    exact List.mem_map_of_mem _ hf
  · simpa [BatchProcessor.run] using
      countP_status_partition (files.map (BatchProcessor.process_file gen))
  · intro f hf lang hlang e he
    have hne : lang ≠ toL "unknown" :=
      lang_map_values_ne_unknown _ (tblGet_mem _ _ _ hlang)
    have hpf : BatchProcessor.process_file gen f = .failed f e := by
      simp [BatchProcessor.process_file, hlang, hne, he]
    have hmem := List.mem_map_of_mem (BatchProcessor.process_file gen) hf
    rw [hpf] at hmem
    simpa [BatchProcessor.run] using hmem

/-- Witness for batch_run_isolates_failures: three python items whose second
raises a transport error give succeeded=2, failed=1, skipped=0 and a failed
entry naming the second item. -/
theorem batch_run_isolates_failures_witness :
    (toL "b.py" ∈ files3) ∧
    tblGet lang_map (lowerL (pathSuffix (toL "b.py"))) = some (toL "python") ∧
    gen3 (toL "b.py") (toL "python") = .error (toL "transport error") ∧
    ProcessResult.failed (toL "b.py") (toL "transport error")
      ∈ (BatchProcessor.run gen3 files3).results ∧
    (BatchProcessor.run gen3 files3).succeeded = 2 ∧
    (BatchProcessor.run gen3 files3).failed = 1 ∧
    (BatchProcessor.run gen3 files3).skipped = 0 :=
  ⟨by decide, by decide, rfl,
    (batch_run_isolates_failures gen3 files3).2.2.2 (toL "b.py") (by decide)
      (toL "python") (by decide) (toL "transport error") rfl,
    by decide, by decide, by decide⟩

/-- C6: an item whose extension maps to no supported language is recorded as
skipped with the unsupported-language reason; the outcome is the same for
every orchestrator, so the orchestrator (and hence the network) is never
invoked for it, and a run containing the item carries the skipped entry. -/
theorem batch_skips_unsupported_language (gen gen2 : GenFn) (files : List (List Char))
    (f : List Char) (hlang : tblGet lang_map (lowerL (pathSuffix f)) = none) :
    BatchProcessor.process_file gen f = .skipped f (toL "Unsupported language") ∧
    BatchProcessor.process_file gen f = BatchProcessor.process_file gen2 f ∧
    (f ∈ files →
      ProcessResult.skipped f (toL "Unsupported language")
        ∈ (BatchProcessor.run gen files).results) := by
  have h1 : ∀ g : GenFn,
      BatchProcessor.process_file g f = .skipped f (toL "Unsupported language") := by
    intro g
    simp [BatchProcessor.process_file, hlang]
  refine ⟨h1 gen, (h1 gen).trans (h1 gen2).symm, ?_⟩
  intro hf
  have hmem := List.mem_map_of_mem (BatchProcessor.process_file gen) hf
  rw [h1 gen] at hmem
  simpa [BatchProcessor.run] using hmem

/-- Witness for batch_skips_unsupported_language at a text file: skipped for a
succeeding and for a raising orchestrator alike. -/
theorem batch_skips_unsupported_language_witness :
    tblGet lang_map (lowerL (pathSuffix (toL "notes.txt"))) = none ∧
    BatchProcessor.process_file genOkStub (toL "notes.txt")
      = .skipped (toL "notes.txt") (toL "Unsupported language") ∧
    BatchProcessor.process_file genOkStub (toL "notes.txt")
      = BatchProcessor.process_file genErrStub (toL "notes.txt") ∧
    ProcessResult.skipped (toL "notes.txt") (toL "Unsupported language")
      ∈ (BatchProcessor.run genOkStub [toL "notes.txt"]).results :=
  let h := batch_skips_unsupported_language genOkStub genErrStub [toL "notes.txt"]
    (toL "notes.txt") (by decide)
  ⟨by decide, h.1, h.2.1, h.2.2 (by decide)⟩
